import Mathlib

/-!
Verification of the barcode-generator core: the persistent store
(`storageService`), the identifier allocator (`generateUniqueCode`)
and the session controller operations of `App.tsx`.

Modelling conventions:
* JavaScript strings are `String`, integer timestamps and the drawn
  random numbers are `Nat` (all values involved are below 2^53).
* `Math.floor(100000000 + Math.random() * 900000000)` is modelled by an
  ambient stream `draws : Nat → Nat` giving the value of the i-th draw;
  theorems that need it assume each draw lies in [100000000, 999999999],
  which is exactly the image of that expression.
* `localStorage` is a record holding the two stored blobs (history key
  and print-queue key).  `JSON.parse` failure and non-array contents are
  explicit constructors; `setItem` failure is a `writeFails` flag, and a
  failing write raises an error that the service's `try/catch` handles.
* React state updates are modelled as pure state transformers on
  `AppState`; the `confirm(...)` dialogs guarding `handleDelete` and
  `clearQueue` are presentation-layer and the modelled operation is the
  confirmed branch.  `showStatus`'s 3-second timeout reset is
  presentation timing and is not modelled; the message just gets set.
-/

namespace Barcode

/-- The single supported encoding tag (`format: 'CODE128'` in `types.ts`). -/
inductive BarcodeFormat
  | CODE128
deriving DecidableEq, Repr

/-- `BarcodeEntry` from `types.ts`: `id` is the 9-digit code as a string,
`createdAt` a timestamp, `label` optional user text. -/
structure BarcodeEntry where
  id : String
  createdAt : Nat
  label : Option String
  format : BarcodeFormat
deriving DecidableEq, Repr

/-- `QueueItem` from `App.tsx`: a `BarcodeEntry` copy plus a per-insertion
`printId`. -/
structure QueueItem extends BarcodeEntry where
  printId : String
deriving DecidableEq, Repr

/-- Contents of the history key of `localStorage`: absent is `Option.none`
outside; otherwise the blob may fail `JSON.parse` (`malformed`), parse to a
non-array (`nonArray`), or parse to a list of entries. -/
inductive StoredHistory
  | malformed
  | nonArray
  | entries (l : List BarcodeEntry)
deriving DecidableEq, Repr

/-- Contents of the print-queue key of `localStorage`: the blob may fail
`JSON.parse` or parse to a list of queue items. -/
inductive StoredQueue
  | malformed
  | items (l : List QueueItem)
deriving DecidableEq, Repr

/-- The browser `localStorage` visible to this app: the two keys
(`barcodegen_history_v1` and `barcodegen_print_queue`) plus a flag saying
whether `setItem` currently fails (e.g. quota exceeded). -/
structure Storage where
  historyStored : Option StoredHistory
  queueStored : Option StoredQueue
  writeFails : Bool
deriving DecidableEq, Repr

/-- Exceptions the storage layer can raise internally. -/
inductive StorageError
  | parseFailure
  | writeFailure
deriving DecidableEq, Repr

/-- `localStorage.setItem(STORAGE_KEY, JSON.stringify(list))`: raises on
write failure, otherwise stores the serialized list. -/
def setItemHistory (st : Storage) (l : List BarcodeEntry) : Except StorageError Storage :=
  if st.writeFails then .error .writeFailure
  else .ok { st with historyStored := some (.entries l) }

/-- Body of `storageService.getHistory` before its `try/catch`:
`if (!data) return []`, `JSON.parse` (may throw),
`Array.isArray(parsed) ? parsed : []`. -/
def getHistoryBody (st : Storage) : Except StorageError (List BarcodeEntry) :=
  match st.historyStored with
  | none => .ok []
  | some .malformed => .error .parseFailure
  | some .nonArray => .ok []
  | some (.entries l) => .ok l

/-- `storageService.getHistory`: the body with its catch clause, which
logs and returns `[]`. -/
def getHistory (st : Storage) : List BarcodeEntry :=
  match getHistoryBody st with
  | .ok l => l
  | .error _ => []

/-- `storageService.getHistory` as seen by the caller, keeping the
exception channel visible: the catch turns every error into `.ok []`. -/
def getHistoryE (st : Storage) : Except StorageError (List BarcodeEntry) :=
  match getHistoryBody st with
  | .ok l => .ok l
  | .error _ => .ok []

/-- Body of `storageService.saveEntry` before its `try/catch`: read the
history (through the already-guarded `getHistory`), drop records with the
same id (`String(e.id) !== String(entry.id)`; ids are strings so `String`
is the identity), prepend, persist. -/
def saveEntryBody (st : Storage) (entry : BarcodeEntry) : Except StorageError Storage :=
  let history := getHistory st
  let filtered := history.filter (fun e => e.id != entry.id)
  setItemHistory st (entry :: filtered)

/-- `storageService.saveEntry`: the body with its catch clause, which logs
and leaves storage as it was. -/
def saveEntry (st : Storage) (entry : BarcodeEntry) : Storage :=
  match saveEntryBody st entry with
  | .ok st' => st'
  | .error _ => st

/-- `storageService.saveEntry` as seen by the caller: the catch absorbs
every error. -/
def saveEntryE (st : Storage) (entry : BarcodeEntry) : Except StorageError Storage :=
  match saveEntryBody st entry with
  | .ok st' => .ok st'
  | .error _ => .ok st

/-- Body of `storageService.deleteEntry` before its `try/catch`: filter out
the id, persist, return the filtered list. -/
def deleteEntryBody (st : Storage) (id : String) :
    Except StorageError (Storage × List BarcodeEntry) :=
  let history := getHistory st
  let updated := history.filter (fun e => e.id != id)
  match setItemHistory st updated with
  | .ok st' => .ok (st', updated)
  | .error e => .error e

/-- `storageService.deleteEntry`: the body with its catch clause, which
logs and returns a fresh `storageService.getHistory()` read of the
still-unmodified store. -/
def deleteEntry (st : Storage) (id : String) : Storage × List BarcodeEntry :=
  match deleteEntryBody st id with
  | .ok r => r
  | .error _ => (st, getHistory st)

/-- `storageService.deleteEntry` as seen by the caller: the catch absorbs
every error. -/
def deleteEntryE (st : Storage) (id : String) :
    Except StorageError (Storage × List BarcodeEntry) :=
  match deleteEntryBody st id with
  | .ok r => .ok r
  | .error _ => .ok (st, getHistory st)

/-- `storageService.clearHistory`: `localStorage.removeItem(STORAGE_KEY)`.
`removeItem` never throws under the Web Storage specification, so the
absence of a `try/catch` here still cannot leak an exception. -/
def clearHistory (st : Storage) : Storage :=
  { st with historyStored := none }

/-- `storageService.clearHistory` as seen by the caller. -/
def clearHistoryE (st : Storage) : Except StorageError Storage :=
  .ok (clearHistory st)

/-- JavaScript `String.prototype.trim`: drop leading and trailing
whitespace.  (Implemented on the character list so that it is
kernel-computable; Lean's `String.trim` agrees on these inputs but is
defined by well-founded recursion on byte positions.) -/
def jsTrim (s : String) : String :=
  ⟨((s.data.dropWhile Char.isWhitespace).reverse.dropWhile Char.isWhitespace).reverse⟩

/-- Type of a `showStatus` message (`'success' | 'error'`). -/
inductive MsgType
  | success
  | error
deriving DecidableEq, Repr

/-- The `statusMessage` record of `App.tsx`. -/
structure StatusMessage where
  type : MsgType
  text : String
deriving DecidableEq, Repr

/-- The React state of `App.tsx` that the core operations touch, plus the
backing `localStorage`.  Presentation-only state (`showHistory`,
`activeTab`) is out of scope. -/
structure AppState where
  history : List BarcodeEntry
  currentEntry : Option BarcodeEntry
  labelInput : String
  statusMessage : Option StatusMessage
  printQueue : List QueueItem
  storage : Storage
deriving DecidableEq, Repr

/-- `showStatus(type, text)`: sets the status message (its timed reset is
presentation behaviour). -/
def showStatus (t : MsgType) (text : String) (s : AppState) : AppState :=
  { s with statusMessage := some { type := t, text := text } }

/-- The `while (!isUnique && attempts < maxAttempts)` loop of
`generateUniqueCode`: `attempts` is the count so far, `fuel` the remaining
budget `maxAttempts - attempts`.  Returns the accepted code (if any) and
the final value of `attempts`. -/
def probeLoop (draws : Nat → Nat) (existingIds : List String) :
    Nat → Nat → Option String × Nat
  | attempts, 0 => (none, attempts)
  | attempts, fuel + 1 =>
    let code := Nat.repr (draws attempts)
    if existingIds.contains code then probeLoop draws existingIds (attempts + 1) fuel
    else (some code, attempts + 1)

/-- `generateUniqueCode` of `App.tsx`: probe up to 100 random codes against
the in-memory history's ids; on failure show an error and return `null`;
on success build the entry, select it, persist it, prepend it to history
and clear the label input.  `draws` is the random stream and `now` the
value of `Date.now()`. -/
def generateUniqueCode (draws : Nat → Nat) (now : Nat) (s : AppState) :
    Option BarcodeEntry × AppState :=
  let existingIds := s.history.map (fun h => h.id)
  match probeLoop draws existingIds 0 100 with
  | (none, _) =>
    (none, showStatus .error "Critical error: Unique ID generation failed." s)
  | (some code, _) =>
    let newEntry : BarcodeEntry :=
      { id := code
        createdAt := now
        label := if jsTrim s.labelInput = "" then none else some (jsTrim s.labelInput)
        format := .CODE128 }
    (some newEntry,
      { s with
          currentEntry := some newEntry
          storage := saveEntry s.storage newEntry
          history := newEntry :: s.history
          labelInput := ""
          statusMessage := some { type := .success, text := "Generated " ++ code } })

/-- `addToPrintQueue` of `App.tsx`.  `freshPrintId` is the value of
`Math.random().toString(36).substr(2, 9) + Date.now().toString()` for this
call. -/
def addToPrintQueue (entry : Option BarcodeEntry) (freshPrintId : String)
    (s : AppState) : AppState :=
  match entry with
  | none => s
  | some e =>
    if s.printQueue.length ≥ 20 then
      showStatus .error "Sheet is full (Max 20 per A4 page)." s
    else
      let newItem : QueueItem := { toBarcodeEntry := e, printId := freshPrintId }
      showStatus .success "Added to A4 Sheet."
        { s with printQueue := s.printQueue ++ [newItem] }

/-- `removeFromQueue` of `App.tsx`. -/
def removeFromQueue (printId : String) (s : AppState) : AppState :=
  { s with printQueue := s.printQueue.filter (fun item => item.printId != printId) }

/-- `clearQueue` of `App.tsx` (the user-confirmed branch). -/
def clearQueue (s : AppState) : AppState :=
  showStatus .success "Sheet cleared." { s with printQueue := [] }

/-- `handleDelete` of `App.tsx` (the user-confirmed branch): delete from
the store, resynchronize history from the returned list, reassign the
selection if it pointed at the deleted id, and drop every queue item with
that id. -/
def handleDelete (id : String) (s : AppState) : AppState :=
  let r := deleteEntry s.storage id
  let updated := r.2
  let s1 : AppState := { s with storage := r.1, history := updated }
  let s2 : AppState :=
    match s.currentEntry with
    | some c => if c.id = id then { s1 with currentEntry := updated.head? } else s1
    | none => s1
  let s3 : AppState := { s2 with printQueue := s2.printQueue.filter (fun item => item.id != id) }
  showStatus .success "Barcode deleted." s3

/-- Clicking a history card: `setCurrentEntry(entry)` (tab and drawer
changes are presentation). -/
def selectEntry (e : BarcodeEntry) (s : AppState) : AppState :=
  { s with currentEntry := some e }

/-- Typing in the label field: `setLabelInput(l)`. -/
def setLabelInput (l : String) (s : AppState) : AppState :=
  { s with labelInput := l }

/-- The print-queue slice of the mount effect of `App.tsx`: read the queue
key, `JSON.parse` inside `try/catch` (parse failure leaves the initial
`[]`). -/
def loadQueue (q : Option StoredQueue) : List QueueItem :=
  match q with
  | none => []
  | some .malformed => []
  | some (.items l) => l

/-- The mount effect of `App.tsx`: load history, select its first record
if any, and load the persisted print queue. -/
def initialLoad (st : Storage) : AppState :=
  let loadedHistory := getHistory st
  { history := loadedHistory
    currentEntry := loadedHistory.head?
    labelInput := ""
    statusMessage := none
    printQueue := loadQueue st.queueStored
    storage := st }

/-- The persist effect of `App.tsx` (`useEffect` on `[printQueue]`):
serialize the queue to its key.  A failing `setItem` leaves storage
unchanged. -/
def persistQueue (s : AppState) : AppState :=
  if s.storage.writeFails then s
  else { s with storage := { s.storage with queueStored := some (.items s.printQueue) } }

/-- One user-triggered operation of the session controller. -/
inductive Op
  | generate (draws : Nat → Nat) (now : Nat)
  | enqueue (entry : Option BarcodeEntry) (freshPrintId : String)
  | dequeue (printId : String)
  | clear
  | delete (id : String)
  | select (e : BarcodeEntry)
  | setLabel (l : String)
  | persist

/-- Interpretation of one operation as a state transformer. -/
def step (op : Op) (s : AppState) : AppState :=
  match op with
  | .generate draws now => (generateUniqueCode draws now s).2
  | .enqueue e pid => addToPrintQueue e pid s
  | .dequeue pid => removeFromQueue pid s
  | .clear => clearQueue s
  | .delete id => handleDelete id s
  | .select e => selectEntry e s
  | .setLabel l => setLabelInput l s
  | .persist => persistQueue s

/-- Running a sequence of operations from a state. -/
def run (ops : List Op) (s : AppState) : AppState :=
  ops.foldl (fun st op => step op st) s

/-! ### Helper lemmas: decimal representation of the drawn codes -/

/-- With enough fuel, `Nat.toDigitsCore` produces exactly the base-10
digits (most significant first) pushed onto the accumulator. -/
lemma toDigitsCore_eq_digits :
    ∀ (f n : Nat) (l : List Char), 0 < n → n < 10 ^ f →
      Nat.toDigitsCore 10 f n l = ((Nat.digits 10 n).map Nat.digitChar).reverse ++ l := by
  intro f
  induction f with
  | zero =>
    intro n l hn hlt
    simp at hlt
    omega
  | succ f ih =>
    intro n l hn hlt
    rw [Nat.toDigitsCore]
    rw [Nat.digits_def' (by norm_num : (1:ℕ) < 10) hn]
    by_cases hdiv : n / 10 = 0
    · simp only [hdiv, if_true]
      have : Nat.digits 10 (n / 10) = [] := by rw [hdiv]; simp
      simp [this]
    · simp only [hdiv, if_false]
      have h1 : 0 < n / 10 := Nat.pos_of_ne_zero hdiv
      have h2 : n / 10 < 10 ^ f := by
        have : n < 10 ^ f * 10 := by
          rw [← pow_succ]
          exact hlt
        omega
      rw [ih (n / 10) (Nat.digitChar (n % 10) :: l) h1 h2]
      simp

/-- The characters of `Nat.repr n` are the base-10 digits of `n`, most
significant first. -/
lemma repr_data_eq_digits (n : Nat) (hn : 0 < n) :
    (Nat.repr n).data = ((Nat.digits 10 n).map Nat.digitChar).reverse := by
  have h1 : n < 10 ^ (n + 1) :=
    lt_of_lt_of_le (Nat.lt_pow_self (by norm_num) n)
      (Nat.pow_le_pow_right (by norm_num) (Nat.le_succ n))
  show (Nat.toDigits 10 n).asString.data = _
  rw [Nat.toDigits, toDigitsCore_eq_digits (n + 1) n [] hn h1]
  simp [List.asString]

/-- Length of the decimal representation of a positive number. -/
lemma repr_length_eq (n : Nat) (hn : 0 < n) :
    (Nat.repr n).length = Nat.log 10 n + 1 := by
  show (Nat.repr n).data.length = _
  rw [repr_data_eq_digits n hn]
  simp [Nat.digits_len 10 n (by norm_num) (by omega : n ≠ 0)]

/-- `Nat.digitChar` of a digit is a decimal digit character. -/
lemma digitChar_isDigit {d : Nat} (hd : d < 10) : (Nat.digitChar d).isDigit = true := by
  interval_cases d <;> decide

/-- `Nat.digitChar` of a nonzero digit is not the character `0`. -/
lemma digitChar_ne_zero_char {d : Nat} (hd : d < 10) (h0 : d ≠ 0) :
    Nat.digitChar d ≠ '0' := by
  interval_cases d <;> simp_all <;> decide

/-- A number in [100000000, 999999999] prints as exactly nine decimal
digit characters with no leading zero. -/
lemma repr_nine_digits (n : Nat) (h1 : 100000000 ≤ n) (h2 : n ≤ 999999999) :
    (Nat.repr n).length = 9 ∧
    (∀ c ∈ (Nat.repr n).data, c.isDigit = true) ∧
    (Nat.repr n).data.head? ≠ some '0' := by
  have hn : 0 < n := by omega
  have hne : n ≠ 0 := by omega
  refine ⟨?_, ?_, ?_⟩
  · rw [repr_length_eq n hn]
    have : Nat.log 10 n = 8 := by
      apply Nat.log_eq_of_pow_le_of_lt_pow
      · norm_num
        omega
      · norm_num
        omega
    omega
  · intro c hc
    rw [repr_data_eq_digits n hn] at hc
    simp only [List.mem_reverse, List.mem_map] at hc
    obtain ⟨d, hd, rfl⟩ := hc
    exact digitChar_isDigit (Nat.digits_lt_base (by norm_num) hd)
  · rw [repr_data_eq_digits n hn, ← List.map_reverse, List.head?_map,
      List.head?_reverse]
    have hnil : Nat.digits 10 n ≠ [] := Nat.digits_ne_nil_iff_ne_zero.mpr hne
    rw [List.getLast?_eq_getLast _ hnil]
    simp only [Option.map_some']
    intro h
    injection h with h
    exact digitChar_ne_zero_char
      (Nat.digits_lt_base (by norm_num) (List.getLast_mem hnil))
      (Nat.getLast_digit_ne_zero 10 hne) h

/-! ### Helper lemmas: the probe loop -/

/-- If every draw collides with the existing ids, the probe loop burns its
whole budget and reports failure, counting one attempt per draw. -/
lemma probeLoop_eq_none (draws : Nat → Nat) (existingIds : List String)
    (hcol : ∀ i, existingIds.contains (Nat.repr (draws i)) = true) :
    ∀ (fuel attempts : Nat),
      probeLoop draws existingIds attempts fuel = (none, attempts + fuel) := by
  intro fuel
  induction fuel with
  | zero =>
    intro attempts
    simp [probeLoop]
  | succ f ih =>
    intro attempts
    rw [probeLoop]
    simp only [hcol attempts, if_true]
    rw [ih (attempts + 1)]
    have : attempts + 1 + f = attempts + (f + 1) := by omega
    rw [this]

/-- A code accepted by the probe loop is one of the draws and does not
collide with the existing ids. -/
lemma probeLoop_some_mem (draws : Nat → Nat) (existingIds : List String) :
    ∀ (fuel attempts : Nat) (code : String) (k : Nat),
      probeLoop draws existingIds attempts fuel = (some code, k) →
      (∃ i, code = Nat.repr (draws i)) ∧ existingIds.contains code = false := by
  intro fuel
  induction fuel with
  | zero =>
    intro attempts code k h
    simp [probeLoop] at h
  | succ f ih =>
    intro attempts code k h
    rw [probeLoop] at h
    by_cases hc : existingIds.contains (Nat.repr (draws attempts)) = true
    · simp only [hc, if_true] at h
      exact ih (attempts + 1) code k h
    · simp only [hc, if_false] at h
      have hcode : code = Nat.repr (draws attempts) := by
        have := congrArg Prod.fst h
        simpa using this.symm
      subst hcode
      exact ⟨⟨attempts, rfl⟩, by simpa using hc⟩

/-- A failed `contains` test means the element is not in the list. -/
lemma contains_false_not_mem {l : List String} {a : String}
    (h : l.contains a = false) : a ∉ l := by
  intro hmem
  have he : List.elem a l = false := h
  rw [List.elem_iff.mpr hmem] at he
  exact Bool.noConfusion he

/-! ### Concrete states used by witnesses and counterexamples -/

/-- A sample stored entry with id `111111111`. -/
def entryA : BarcodeEntry :=
  { id := "111111111", createdAt := 0, label := some "A", format := .CODE128 }

/-- A sample stored entry with id `222222222`. -/
def entryB : BarcodeEntry :=
  { id := "222222222", createdAt := 1, label := none, format := .CODE128 }

/-- Random stream for witnesses: always draws 123456789. -/
def drawsFresh : Nat → Nat := fun _ => 123456789

/-- Random stream for witnesses: always draws 111111111 (entryA's id). -/
def drawsStuck : Nat → Nat := fun _ => 111111111

/-- App state for the C1 witness: history holds only `entryB`, the label
field holds text with surrounding whitespace. -/
def sGen : AppState :=
  { history := [entryB], currentEntry := some entryB,
    labelInput := "  Asset 1  ", statusMessage := none, printQueue := [],
    storage := { historyStored := some (.entries [entryB]),
                 queueStored := none, writeFails := false } }

/-- The entry the C1 witness generation produces. -/
def eGen : BarcodeEntry :=
  { id := "123456789", createdAt := 5, label := some "Asset 1", format := .CODE128 }

/-- App state for the C3 witness: history holds `entryA`, whose id every
draw of `drawsStuck` collides with. -/
def sStuck : AppState :=
  { history := [entryA], currentEntry := some entryA, labelInput := "",
    statusMessage := none, printQueue := [],
    storage := { historyStored := some (.entries [entryA]),
                 queueStored := none, writeFails := false } }

/-! ### Claim theorems -/

/-- Claim C1: when `generate` succeeds, the returned entry's id is a
string of exactly 9 decimal digits with no leading zero (the printed form
of a number in [100000000, 999999999]) that is not among the history's ids
before the call; afterwards the entry is the first element of history and
is the current entry, its label is the trimmed input (absent when the
input trims to empty), its `createdAt` is the current time, and its format
is the single supported tag. -/
theorem generate_success_props (draws : Nat → Nat) (now : Nat) (s : AppState)
    (e : BarcodeEntry)
    (hrange : ∀ i, 100000000 ≤ draws i ∧ draws i ≤ 999999999)
    (hsucc : (generateUniqueCode draws now s).1 = some e) :
    (e.id.length = 9 ∧ (∀ c ∈ e.id.data, c.isDigit = true) ∧
      e.id.data.head? ≠ some '0' ∧
      (∃ n, 100000000 ≤ n ∧ n ≤ 999999999 ∧ e.id = Nat.repr n)) ∧
    e.id ∉ s.history.map (fun h => h.id) ∧
    (generateUniqueCode draws now s).2.history = e :: s.history ∧
    (generateUniqueCode draws now s).2.history.head? = some e ∧
    (generateUniqueCode draws now s).2.currentEntry = some e ∧
    e.createdAt = now ∧
    e.label = (if jsTrim s.labelInput = "" then none else some (jsTrim s.labelInput)) ∧
    e.format = BarcodeFormat.CODE128 := by
  rcases hp : probeLoop draws (s.history.map (fun h => h.id)) 0 100 with ⟨r, k⟩
  cases r with
  | none =>
    exfalso
    simp [generateUniqueCode, hp] at hsucc
  | some code =>
    obtain ⟨⟨i, hcode⟩, hnc⟩ :=
      probeLoop_some_mem draws (s.history.map (fun h => h.id)) 100 0 code k hp
    obtain ⟨hlo, hhi⟩ := hrange i
    have he : e =
        { id := code, createdAt := now,
          label := if jsTrim s.labelInput = "" then none else some (jsTrim s.labelInput),
          format := .CODE128 } := by
      have h1 : (generateUniqueCode draws now s).1 =
          some { id := code, createdAt := now,
                 label := if jsTrim s.labelInput = "" then none
                          else some (jsTrim s.labelInput),
                 format := .CODE128 } := by
        simp [generateUniqueCode, hp]
      rw [h1, Option.some.injEq] at hsucc
      exact hsucc.symm
    obtain ⟨hlen, hdig, hhead⟩ := repr_nine_digits (draws i) hlo hhi
    have hid : e.id = code := by rw [he]
    refine ⟨⟨?_, ?_, ?_, ⟨draws i, hlo, hhi, ?_⟩⟩, ?_, ?_, ?_, ?_, ?_, ?_, ?_⟩
    · rw [hid, hcode]; exact hlen
    · rw [hid, hcode]; exact hdig
    · rw [hid, hcode]; exact hhead
    · rw [hid, hcode]
    · rw [hid]; exact contains_false_not_mem hnc
    · rw [he]; simp [generateUniqueCode, hp]
    · rw [he]; simp [generateUniqueCode, hp]
    · rw [he]; simp [generateUniqueCode, hp]
    · simp [he]
    · simp [he]
    · simp [he]

/-- Claim C1 witness: a concrete successful generation from a one-entry
history with a whitespace-padded label. -/
theorem generate_success_props_witness :
    ((generateUniqueCode drawsFresh 5 sGen).1 = some eGen) ∧
    ((eGen.id.length = 9 ∧ (∀ c ∈ eGen.id.data, c.isDigit = true) ∧
        eGen.id.data.head? ≠ some '0' ∧
        (∃ n, 100000000 ≤ n ∧ n ≤ 999999999 ∧ eGen.id = Nat.repr n)) ∧
      eGen.id ∉ sGen.history.map (fun h => h.id) ∧
      (generateUniqueCode drawsFresh 5 sGen).2.history = eGen :: sGen.history ∧
      (generateUniqueCode drawsFresh 5 sGen).2.history.head? = some eGen ∧
      (generateUniqueCode drawsFresh 5 sGen).2.currentEntry = some eGen ∧
      eGen.createdAt = 5 ∧
      eGen.label =
        (if jsTrim sGen.labelInput = "" then none else some (jsTrim sGen.labelInput)) ∧
      eGen.format = BarcodeFormat.CODE128) :=
  ⟨by decide,
   generate_success_props drawsFresh 5 sGen eGen
     (fun i => ⟨(by decide : (100000000 : Nat) ≤ 123456789),
                (by decide : (123456789 : Nat) ≤ 999999999)⟩)
     (by decide)⟩

/-- Claim C3: when every drawn candidate collides with the existing ids,
generation fails after exactly 100 attempts, the failure is surfaced as
the distinguishable error message, and history, current entry, storage
and print queue are all unchanged. -/
theorem allocator_exhaustion (draws : Nat → Nat) (now : Nat) (s : AppState)
    (hcol : ∀ i, (s.history.map (fun h => h.id)).contains (Nat.repr (draws i)) = true) :
    (generateUniqueCode draws now s).1 = none ∧
    probeLoop draws (s.history.map (fun h => h.id)) 0 100 = (none, 100) ∧
    (generateUniqueCode draws now s).2.history = s.history ∧
    (generateUniqueCode draws now s).2.currentEntry = s.currentEntry ∧
    (generateUniqueCode draws now s).2.storage = s.storage ∧
    (generateUniqueCode draws now s).2.printQueue = s.printQueue ∧
    (generateUniqueCode draws now s).2.labelInput = s.labelInput ∧
    (generateUniqueCode draws now s).2.statusMessage =
      some { type := .error, text := "Critical error: Unique ID generation failed." } := by
  have hp : probeLoop draws (s.history.map (fun h => h.id)) 0 100 = (none, 100) := by
    have := probeLoop_eq_none draws (s.history.map (fun h => h.id)) hcol 100 0
    simpa using this
  refine ⟨?_, hp, ?_, ?_, ?_, ?_, ?_, ?_⟩ <;>
    simp [generateUniqueCode, hp, showStatus]

/-- Claim C3 witness: a single-entry history whose id every draw hits. -/
theorem allocator_exhaustion_witness :
    ((generateUniqueCode drawsStuck 7 sStuck).1 = none ∧
     probeLoop drawsStuck (sStuck.history.map (fun h => h.id)) 0 100 = (none, 100) ∧
     (generateUniqueCode drawsStuck 7 sStuck).2.history = sStuck.history ∧
     (generateUniqueCode drawsStuck 7 sStuck).2.currentEntry = sStuck.currentEntry ∧
     (generateUniqueCode drawsStuck 7 sStuck).2.storage = sStuck.storage ∧
     (generateUniqueCode drawsStuck 7 sStuck).2.printQueue = sStuck.printQueue ∧
     (generateUniqueCode drawsStuck 7 sStuck).2.labelInput = sStuck.labelInput ∧
     (generateUniqueCode drawsStuck 7 sStuck).2.statusMessage =
       some { type := .error, text := "Critical error: Unique ID generation failed." }) :=
  allocator_exhaustion drawsStuck 7 sStuck
    (fun i => by
      show (sStuck.history.map (fun h => h.id)).contains (Nat.repr 111111111) = true
      decide)

/-- A successful `saveEntry` replaces the stored blob with the deduplicated
prepended list. -/
lemma saveEntry_eq (st : Storage) (e : BarcodeEntry) (hw : st.writeFails = false) :
    saveEntry st e =
      { st with historyStored :=
          (some (.entries (e :: (getHistory st).filter (fun x => x.id != e.id)))) } := by
  simp [saveEntry, saveEntryBody, setItemHistory, hw]

/-- Claim C4: `saveEntry` removes every stored record with the entry's id
and prepends the entry, so its id occurs exactly once and the entry is
first; the operation is idempotent (re-saving leaves the stored state, in
particular the history length, unchanged), and it preserves distinctness
of stored ids. -/
theorem saveEntry_dedup_idem (st : Storage) (e : BarcodeEntry)
    (hw : st.writeFails = false) :
    getHistory (saveEntry st e) =
      e :: (getHistory st).filter (fun x => x.id != e.id) ∧
    (getHistory (saveEntry st e)).countP (fun x => x.id == e.id) = 1 ∧
    (getHistory (saveEntry st e)).head? = some e ∧
    saveEntry (saveEntry st e) e = saveEntry st e ∧
    (getHistory (saveEntry (saveEntry st e) e)).length =
      (getHistory (saveEntry st e)).length ∧
    (((getHistory st).map (fun x => x.id)).Nodup →
      ((getHistory (saveEntry st e)).map (fun x => x.id)).Nodup) := by
  have hsv := saveEntry_eq st e hw
  have hget : getHistory (saveEntry st e) =
      e :: (getHistory st).filter (fun x => x.id != e.id) := by
    rw [hsv]; simp [getHistory, getHistoryBody]
  have hfilt : ∀ x ∈ (getHistory st).filter (fun x => x.id != e.id),
      (x.id != e.id) = true :=
    fun x hx => (List.mem_filter.mp hx).2
  have hfix : ((getHistory st).filter (fun x => x.id != e.id)).filter
      (fun x => x.id != e.id) = (getHistory st).filter (fun x => x.id != e.id) :=
    List.filter_eq_self.mpr hfilt
  have hw2 : (saveEntry st e).writeFails = false := by rw [hsv]; exact hw
  have hidem : saveEntry (saveEntry st e) e = saveEntry st e := by
    rw [saveEntry_eq (saveEntry st e) e hw2, hget]
    rw [List.filter_cons]
    simp only [bne_self_eq_false, Bool.false_eq_true, if_false, hfix]
    rw [hsv]
  refine ⟨hget, ?_, ?_, hidem, by rw [hidem], ?_⟩
  · rw [hget, List.countP_cons]
    have h0 : List.countP (fun x => x.id == e.id)
        ((getHistory st).filter (fun x => x.id != e.id)) = 0 := by
      rw [List.countP_eq_zero]
      intro a ha
      have hne := hfilt a ha
      rw [bne_iff_ne] at hne
      simp [hne]
    simp [h0]
  · rw [hget]; rfl
  · intro hnd
    rw [hget]
    simp only [List.map_cons, List.nodup_cons]
    refine ⟨?_, (List.Sublist.map _ (List.filter_sublist _)).nodup hnd⟩
    intro hmem
    simp only [List.mem_map] at hmem
    obtain ⟨x, hx, hxe⟩ := hmem
    have hne := hfilt x hx
    rw [bne_iff_ne] at hne
    exact hne hxe

/-- Storage for the C4 witness: two stored entries, the second sharing the
id that will be re-saved. -/
def stSave : Storage :=
  { historyStored := some (.entries [entryA, entryB]),
    queueStored := none, writeFails := false }

/-- Entry for the C4 witness: same id as `entryB`, different label. -/
def eSave : BarcodeEntry :=
  { id := "222222222", createdAt := 9, label := some "B2", format := .CODE128 }

/-- Claim C4 witness: re-saving an id already in a two-entry store. -/
theorem saveEntry_dedup_idem_witness :
    getHistory (saveEntry stSave eSave) =
      eSave :: (getHistory stSave).filter (fun x => x.id != eSave.id) ∧
    (getHistory (saveEntry stSave eSave)).countP (fun x => x.id == eSave.id) = 1 ∧
    (getHistory (saveEntry stSave eSave)).head? = some eSave ∧
    saveEntry (saveEntry stSave eSave) eSave = saveEntry stSave eSave ∧
    (getHistory (saveEntry (saveEntry stSave eSave) eSave)).length =
      (getHistory (saveEntry stSave eSave)).length ∧
    (((getHistory stSave).map (fun x => x.id)).Nodup →
      ((getHistory (saveEntry stSave eSave)).map (fun x => x.id)).Nodup) :=
  saveEntry_dedup_idem stSave eSave rfl

/-- A successful `deleteEntry` stores the filtered list and returns it. -/
lemma deleteEntry_eq (st : Storage) (id : String) (hw : st.writeFails = false) :
    deleteEntry st id =
      ({ st with historyStored :=
           (some (.entries ((getHistory st).filter (fun e => e.id != id)))) },
       (getHistory st).filter (fun e => e.id != id)) := by
  simp [deleteEntry, deleteEntryBody, setItemHistory, hw]

/-- Claim C2: after `handleDelete id`, no record with that id is left in
the in-memory history, in the persistent store, or in the print queue
(however many slots referenced it); history mirrors the store; and the
current selection is reassigned to the new first history element (absent
when history is empty) exactly when it pointed at the deleted id. -/
theorem delete_consistency (id : String) (s : AppState)
    (hw : s.storage.writeFails = false) :
    (∀ e ∈ (handleDelete id s).history, e.id ≠ id) ∧
    (∀ e ∈ getHistory (handleDelete id s).storage, e.id ≠ id) ∧
    (∀ item ∈ (handleDelete id s).printQueue, item.id ≠ id) ∧
    (handleDelete id s).history = getHistory (handleDelete id s).storage ∧
    (∀ c, s.currentEntry = some c → c.id = id →
      (handleDelete id s).currentEntry = (handleDelete id s).history.head?) ∧
    (∀ c, s.currentEntry = some c → c.id ≠ id →
      (handleDelete id s).currentEntry = some c) := by
  have hdel := deleteEntry_eq s.storage id hw
  have hhist : (handleDelete id s).history =
      (getHistory s.storage).filter (fun e => e.id != id) := by
    rcases hcur : s.currentEntry with - | c
    · simp [handleDelete, hdel, hcur, showStatus]
    · by_cases hc : c.id = id <;> simp [handleDelete, hdel, hcur, hc, showStatus]
  have hstor : (handleDelete id s).storage =
      { s.storage with historyStored :=
          (some (.entries ((getHistory s.storage).filter (fun e => e.id != id)))) } := by
    rcases hcur : s.currentEntry with - | c
    · simp [handleDelete, hdel, hcur, showStatus]
    · by_cases hc : c.id = id <;> simp [handleDelete, hdel, hcur, hc, showStatus]
  have hqueue : (handleDelete id s).printQueue =
      s.printQueue.filter (fun item => item.id != id) := by
    rcases hcur : s.currentEntry with - | c
    · simp [handleDelete, hdel, hcur, showStatus]
    · by_cases hc : c.id = id <;> simp [handleDelete, hdel, hcur, hc, showStatus]
  refine ⟨?_, ?_, ?_, ?_, ?_, ?_⟩
  · rw [hhist]
    intro e he
    have := (List.mem_filter.mp he).2
    rwa [bne_iff_ne] at this
  · rw [hstor]
    simp only [getHistory, getHistoryBody]
    intro e he
    have := (List.mem_filter.mp he).2
    rwa [bne_iff_ne] at this
  · rw [hqueue]
    intro item hitem
    have := (List.mem_filter.mp hitem).2
    rwa [bne_iff_ne] at this
  · rw [hhist, hstor]
    simp [getHistory, getHistoryBody]
  · intro c hcur hc
    rw [hhist]
    simp [handleDelete, hdel, hcur, hc, showStatus]
  · intro c hcur hc
    simp [handleDelete, hdel, hcur, hc, showStatus]

/-- App state for the C2 witness: two stored entries, `entryA` selected and
occupying two queue slots, `entryB` one. -/
def sDel : AppState :=
  { history := [entryA, entryB], currentEntry := some entryA, labelInput := "",
    statusMessage := none,
    printQueue :=
      [{ toBarcodeEntry := entryA, printId := "p1" },
       { toBarcodeEntry := entryB, printId := "p2" },
       { toBarcodeEntry := entryA, printId := "p3" }],
    storage := { historyStored := some (.entries [entryA, entryB]),
                 queueStored := none, writeFails := false } }

/-- Claim C2 witness: deleting the selected id `111111111` from `sDel`. -/
theorem delete_consistency_witness :
    (∀ e ∈ (handleDelete "111111111" sDel).history, e.id ≠ "111111111") ∧
    (∀ e ∈ getHistory (handleDelete "111111111" sDel).storage, e.id ≠ "111111111") ∧
    (∀ item ∈ (handleDelete "111111111" sDel).printQueue, item.id ≠ "111111111") ∧
    (handleDelete "111111111" sDel).history =
      getHistory (handleDelete "111111111" sDel).storage ∧
    (∀ c, sDel.currentEntry = some c → c.id = "111111111" →
      (handleDelete "111111111" sDel).currentEntry =
        (handleDelete "111111111" sDel).history.head?) ∧
    (∀ c, sDel.currentEntry = some c → c.id ≠ "111111111" →
      (handleDelete "111111111" sDel).currentEntry = some c) :=
  delete_consistency "111111111" sDel rfl

/-- Claim C10: when the underlying write fails, `deleteEntry` leaves the
store untouched and returns the fresh re-read of the still-stored list
(not the filtered one), and the controller resynchronizes its in-memory
history to that list. -/
theorem delete_write_failure_resync (s : AppState) (id : String)
    (hw : s.storage.writeFails = true) :
    deleteEntry s.storage id = (s.storage, getHistory s.storage) ∧
    (handleDelete id s).history = getHistory s.storage ∧
    (handleDelete id s).storage = s.storage := by
  have hdel : deleteEntry s.storage id = (s.storage, getHistory s.storage) := by
    simp [deleteEntry, deleteEntryBody, setItemHistory, hw]
  refine ⟨hdel, ?_, ?_⟩ <;>
  · rcases hcur : s.currentEntry with - | c
    · simp [handleDelete, hdel, hcur, showStatus]
    · by_cases hc : c.id = id <;> simp [handleDelete, hdel, hcur, hc, showStatus]

/-- App state for the C10 witness: `entryA` stored, but the storage write
fails. -/
def sFail : AppState :=
  { history := [entryA], currentEntry := some entryA, labelInput := "",
    statusMessage := none, printQueue := [],
    storage := { historyStored := some (.entries [entryA]),
                 queueStored := none, writeFails := true } }

/-- Claim C10 witness: deleting `111111111` under a failing write leaves
the record in the resynchronized history, and the returned list is not the
filtered one. -/
theorem delete_write_failure_resync_witness :
    (deleteEntry sFail.storage "111111111" = (sFail.storage, getHistory sFail.storage) ∧
     (handleDelete "111111111" sFail).history = getHistory sFail.storage ∧
     (handleDelete "111111111" sFail).storage = sFail.storage) ∧
    entryA ∈ (handleDelete "111111111" sFail).history ∧
    (deleteEntry sFail.storage "111111111").2 ≠
      (getHistory sFail.storage).filter (fun e => e.id != "111111111") :=
  ⟨delete_write_failure_resync sFail "111111111" rfl, by decide, by decide⟩

/-- Claim C5: enqueue on a full (20-item) queue fails with the sheet-full
error and leaves the queue unchanged at 20; enqueue below capacity appends
exactly one item to the end; enqueue never grows the queue beyond 20. -/
theorem enqueue_capacity (s : AppState) (e : BarcodeEntry) (pid : String) :
    (s.printQueue.length = 20 →
      (addToPrintQueue (some e) pid s).printQueue = s.printQueue ∧
      (addToPrintQueue (some e) pid s).printQueue.length = 20 ∧
      (addToPrintQueue (some e) pid s).statusMessage =
        some { type := .error, text := "Sheet is full (Max 20 per A4 page)." }) ∧
    (s.printQueue.length < 20 →
      (addToPrintQueue (some e) pid s).printQueue =
        s.printQueue ++ [{ toBarcodeEntry := e, printId := pid }] ∧
      (addToPrintQueue (some e) pid s).printQueue.length = s.printQueue.length + 1) ∧
    (s.printQueue.length ≤ 20 →
      (addToPrintQueue (some e) pid s).printQueue.length ≤ 20) := by
  refine ⟨?_, ?_, ?_⟩
  · intro h20
    have hge : s.printQueue.length ≥ 20 := by omega
    refine ⟨?_, ?_, ?_⟩ <;> simp [addToPrintQueue, hge, showStatus, h20]
  · intro hlt
    have hge : ¬ s.printQueue.length ≥ 20 := by omega
    refine ⟨?_, ?_⟩ <;> simp [addToPrintQueue, hge, showStatus]
  · intro hle
    by_cases hge : s.printQueue.length ≥ 20
    · simpa [addToPrintQueue, hge, showStatus] using hle
    · simp [addToPrintQueue, hge, showStatus]
      omega

/-- App state for the C5 witness: the print sheet holds 20 items. -/
def sFull : AppState :=
  { history := [entryA], currentEntry := some entryA, labelInput := "",
    statusMessage := none,
    printQueue := List.replicate 20 { toBarcodeEntry := entryA, printId := "p" },
    storage := { historyStored := some (.entries [entryA]),
                 queueStored := none, writeFails := false } }

/-- Claim C5 witness: the sheet-full state really has 20 items, and the
capacity behaviour holds there. -/
theorem enqueue_capacity_witness :
    sFull.printQueue.length = 20 ∧
    ((sFull.printQueue.length = 20 →
      (addToPrintQueue (some entryB) "p9" sFull).printQueue = sFull.printQueue ∧
      (addToPrintQueue (some entryB) "p9" sFull).printQueue.length = 20 ∧
      (addToPrintQueue (some entryB) "p9" sFull).statusMessage =
        some { type := .error, text := "Sheet is full (Max 20 per A4 page)." }) ∧
    (sFull.printQueue.length < 20 →
      (addToPrintQueue (some entryB) "p9" sFull).printQueue =
        sFull.printQueue ++ [{ toBarcodeEntry := entryB, printId := "p9" }] ∧
      (addToPrintQueue (some entryB) "p9" sFull).printQueue.length =
        sFull.printQueue.length + 1) ∧
    (sFull.printQueue.length ≤ 20 →
      (addToPrintQueue (some entryB) "p9" sFull).printQueue.length ≤ 20)) :=
  ⟨by decide, enqueue_capacity sFull entryB "p9"⟩

/-- App state for the C8 counterexample and the C9 witness: empty queue,
no status message. -/
def sIdle : AppState :=
  { history := [], currentEntry := none, labelInput := "", statusMessage := none,
    printQueue := [],
    storage := { historyStored := none, queueStored := none, writeFails := false } }

/-- Claim C8 counterexample: enqueue with an absent entry surfaces no
status message at all (the status stays `none`, so no user-visible
`NoEntry` error is shown), refuting the claimed error surfacing; the state
is completely unchanged. -/
theorem enqueue_absent_counterexample :
    (addToPrintQueue none "p1" sIdle).statusMessage = none ∧
    addToPrintQueue none "p1" sIdle = sIdle :=
  ⟨rfl, rfl⟩

/-- Claim C8 (amended): enqueue with an absent entry is a silent no-op: it
leaves the whole state, in particular the print queue and the status
message, unchanged, and surfaces no user-visible error. -/
theorem enqueue_absent_amended (pid : String) (s : AppState) :
    addToPrintQueue none pid s = s := rfl

/-- Claim C9: enqueuing the same entry twice on a queue with at least two
free slots (given that the two freshly generated print ids differ, which
is what the random-plus-timestamp generator provides) appends two items
whose `printId`s are distinct and whose `id` and `label` are identical
copies of the entry's fields. -/
theorem enqueue_duplicate_distinct (s : AppState) (e : BarcodeEntry)
    (pid1 pid2 : String)
    (hlen : s.printQueue.length ≤ 18) (hpid : pid1 ≠ pid2) :
    (addToPrintQueue (some e) pid2 (addToPrintQueue (some e) pid1 s)).printQueue =
      s.printQueue ++ [{ toBarcodeEntry := e, printId := pid1 },
                       { toBarcodeEntry := e, printId := pid2 }] ∧
    ({ toBarcodeEntry := e, printId := pid1 } : QueueItem).printId ≠
      ({ toBarcodeEntry := e, printId := pid2 } : QueueItem).printId ∧
    ({ toBarcodeEntry := e, printId := pid1 } : QueueItem).id = e.id ∧
    ({ toBarcodeEntry := e, printId := pid2 } : QueueItem).id = e.id ∧
    ({ toBarcodeEntry := e, printId := pid1 } : QueueItem).label = e.label ∧
    ({ toBarcodeEntry := e, printId := pid2 } : QueueItem).label = e.label := by
  have h1 : ¬ s.printQueue.length ≥ 20 := by omega
  have hs1 : addToPrintQueue (some e) pid1 s =
      { s with printQueue := s.printQueue ++ [{ toBarcodeEntry := e, printId := pid1 }],
               statusMessage := some { type := .success, text := "Added to A4 Sheet." } } := by
    simp [addToPrintQueue, h1, showStatus]
  have h2 : ¬ 19 ≤ s.printQueue.length := by omega
  refine ⟨?_, hpid, rfl, rfl, rfl, rfl⟩
  rw [hs1]
  simp [addToPrintQueue, h2, showStatus]

/-- Claim C9 witness: enqueuing `entryA` twice on the empty queue with
distinct fresh print ids. -/
theorem enqueue_duplicate_distinct_witness :
    ((addToPrintQueue (some entryA) "p2" (addToPrintQueue (some entryA) "p1" sIdle)).printQueue =
      sIdle.printQueue ++ [{ toBarcodeEntry := entryA, printId := "p1" },
                           { toBarcodeEntry := entryA, printId := "p2" }] ∧
    ({ toBarcodeEntry := entryA, printId := "p1" } : QueueItem).printId ≠
      ({ toBarcodeEntry := entryA, printId := "p2" } : QueueItem).printId ∧
    ({ toBarcodeEntry := entryA, printId := "p1" } : QueueItem).id = entryA.id ∧
    ({ toBarcodeEntry := entryA, printId := "p2" } : QueueItem).id = entryA.id ∧
    ({ toBarcodeEntry := entryA, printId := "p1" } : QueueItem).label = entryA.label ∧
    ({ toBarcodeEntry := entryA, printId := "p2" } : QueueItem).label = entryA.label) :=
  enqueue_duplicate_distinct sIdle entryA "p1" "p2" (by decide) (by decide)

/-- Claim C7: no store operation throws to its caller (every error is
absorbed by the operation's catch clause, and `removeItem` cannot throw),
each returns a well-defined value, and a missing, unparseable or non-array
history blob reads as the empty list. -/
theorem storage_never_throws (st : Storage) (e : BarcodeEntry) (id : String) :
    (getHistoryE st).isOk = true ∧
    (saveEntryE st e).isOk = true ∧
    (deleteEntryE st id).isOk = true ∧
    (clearHistoryE st).isOk = true ∧
    getHistoryE st = .ok (getHistory st) ∧
    (st.historyStored = none → getHistory st = []) ∧
    (st.historyStored = some .malformed → getHistory st = []) ∧
    (st.historyStored = some .nonArray → getHistory st = []) := by
  refine ⟨?_, ?_, ?_, ?_, ?_, ?_, ?_, ?_⟩
  · cases hb : getHistoryBody st <;> simp [getHistoryE, hb, Except.isOk, Except.toBool]
  · cases hb : saveEntryBody st e <;> simp [saveEntryE, hb, Except.isOk, Except.toBool]
  · cases hb : deleteEntryBody st id <;> simp [deleteEntryE, hb, Except.isOk, Except.toBool]
  · simp [clearHistoryE, Except.isOk, Except.toBool]
  · cases hb : getHistoryBody st <;> simp [getHistoryE, getHistory, hb]
  · intro h
    simp [getHistory, getHistoryBody, h]
  · intro h
    simp [getHistory, getHistoryBody, h]
  · intro h
    simp [getHistory, getHistoryBody, h]

/-- Storage for the C7 witness: a malformed history blob and failing
writes, the worst case the service can face. -/
def stBad : Storage :=
  { historyStored := some .malformed, queueStored := none, writeFails := true }

/-- Claim C7 witness: the no-throw behaviour at the worst-case storage. -/
theorem storage_never_throws_witness :
    (getHistoryE stBad).isOk = true ∧
    (saveEntryE stBad entryA).isOk = true ∧
    (deleteEntryE stBad "111111111").isOk = true ∧
    (clearHistoryE stBad).isOk = true ∧
    getHistoryE stBad = .ok (getHistory stBad) ∧
    (stBad.historyStored = none → getHistory stBad = []) ∧
    (stBad.historyStored = some .malformed → getHistory stBad = []) ∧
    (stBad.historyStored = some .nonArray → getHistory stBad = []) :=
  storage_never_throws stBad entryA "111111111"

/-- The printed queue after `handleDelete` is the original queue with every
item carrying the deleted id removed, whatever the storage outcome. -/
lemma handleDelete_printQueue (id : String) (s : AppState) :
    (handleDelete id s).printQueue =
      s.printQueue.filter (fun item => item.id != id) := by
  rcases hcur : s.currentEntry with - | c
  · simp [handleDelete, showStatus, hcur]
  · by_cases hc : c.id = id <;> simp [handleDelete, showStatus, hcur, hc]

/-- Every controller operation keeps the queue length within the 20-slot
bound. -/
lemma step_queue_le (op : Op) (s : AppState) (h : s.printQueue.length ≤ 20) :
    (step op s).printQueue.length ≤ 20 := by
  cases op with
  | generate draws now =>
    rcases hp : probeLoop draws (s.history.map (fun h => h.id)) 0 100 with ⟨r, k⟩
    cases r with
    | none => simpa [step, generateUniqueCode, hp, showStatus] using h
    | some code => simpa [step, generateUniqueCode, hp] using h
  | enqueue e pid =>
    cases e with
    | none => simpa [step, addToPrintQueue] using h
    | some e' =>
      by_cases hge : s.printQueue.length ≥ 20
      · simpa [step, addToPrintQueue, hge, showStatus] using h
      · simp [step, addToPrintQueue, hge, showStatus]
        omega
  | dequeue pid =>
    simp only [step, removeFromQueue]
    exact le_trans (List.length_filter_le _ _) h
  | clear => simp [step, clearQueue, showStatus]
  | delete id =>
    rw [step, handleDelete_printQueue]
    exact le_trans (List.length_filter_le _ _) h
  | select e => simpa [step, selectEntry] using h
  | setLabel l => simpa [step, setLabelInput] using h
  | persist =>
    by_cases hw : s.storage.writeFails <;> simpa [step, persistQueue, hw] using h

/-- Runs of controller operations keep the queue length within bound. -/
lemma run_queue_le (ops : List Op) (s : AppState) (h : s.printQueue.length ≤ 20) :
    (run ops s).printQueue.length ≤ 20 := by
  induction ops generalizing s with
  | nil => simpa [run] using h
  | cons op ops ih =>
    have hc : run (op :: ops) s = run ops (step op s) := rfl
    rw [hc]
    exact ih (step op s) (step_queue_le op s h)

/-- Claim C6 (amended): every in-app operation (generate, enqueue, dequeue,
clear, delete, select, label edit, queue persist) preserves
`0 ≤ |printQueue| ≤ 20`, and the initial load yields exactly the persisted
queue items without clamping — so the invariant holds in every state
reached from a startup whose persisted queue blob has at most 20 items
(in particular any blob the app itself persisted); enqueue appends to the
end, keeping append order. -/
theorem queue_invariant_amended (st : Storage) (ops : List Op)
    (hq : (loadQueue st.queueStored).length ≤ 20) :
    (initialLoad st).printQueue = loadQueue st.queueStored ∧
    (run ops (initialLoad st)).printQueue.length ≤ 20 ∧
    (∀ s' : AppState, ∀ e pid, s'.printQueue.length < 20 →
      (addToPrintQueue (some e) pid s').printQueue =
        s'.printQueue ++ [{ toBarcodeEntry := e, printId := pid }]) := by
  refine ⟨rfl, ?_, ?_⟩
  · exact run_queue_le ops (initialLoad st) (by simpa [initialLoad] using hq)
  · intro s' e pid hlt
    have hge : ¬ s'.printQueue.length ≥ 20 := by omega
    simp [addToPrintQueue, hge, showStatus]

/-- Storage for the C6 counterexample: the persisted print-queue blob
holds 21 items. -/
def st21 : Storage :=
  { historyStored := none,
    queueStored :=
      some (.items (List.replicate 21 { toBarcodeEntry := entryA, printId := "p" })),
    writeFails := false }

/-- Claim C6 counterexample: the initial load does not clamp the persisted
queue, so loading a 21-item blob produces a state violating
`printQueue.length ≤ 20` immediately after the load. -/
theorem queue_invariant_counterexample :
    (initialLoad st21).printQueue.length = 21 ∧
    ¬ ((initialLoad st21).printQueue.length ≤ 20) := by
  refine ⟨?_, ?_⟩ <;> decide

/-- Operation sequence for the C6 witness. -/
def opsW : List Op :=
  [.enqueue (some entryA) "q1", .enqueue (some entryA) "q2",
   .dequeue "q1", .persist, .clear]

/-- Claim C6 witness: a concrete run from an empty-queue startup. -/
theorem queue_invariant_amended_witness :
    (loadQueue stSave.queueStored).length ≤ 20 ∧
    ((initialLoad stSave).printQueue = loadQueue stSave.queueStored ∧
     (run opsW (initialLoad stSave)).printQueue.length ≤ 20 ∧
     (∀ s' : AppState, ∀ e pid, s'.printQueue.length < 20 →
       (addToPrintQueue (some e) pid s').printQueue =
         s'.printQueue ++ [{ toBarcodeEntry := e, printId := pid }])) :=
  ⟨by decide, queue_invariant_amended stSave opsW (by decide)⟩

end Barcode
